import Mathlib

/-!
Shallow embedding of `src/shopify_contact_scraper.py` (PrA-GYaN/WebScrap),
the contact-information scraper, together with theorems settling the claims
about its extraction, pagination and merge behaviour.

Python strings are modelled as `List Char` (`Str`).  External collaborators
are modelled at their interface boundary, exactly as the scraper consumes
them:

* BeautifulSoup queries: a parsed document is a `Doc` record whose fields
  hold exactly the pieces of the DOM the scraper queries (hyperlinks in
  document order, the `.string` values of `p/div/span/li/td` elements,
  `<meta>` `content` attributes, schema.org `PostalAddress` blocks with the
  texts of their `itemprop` children, and the raw texts of `address/div/p`
  block elements).  Where the source calls `get_text(strip=True)` the model
  applies `pyStrip` to the stored raw text.
* `re.findall` on the compiled e-mail / phone patterns is an explicit
  function parameter (`efind` / `pfind`): the theorems below hold for every
  such matcher, and concrete instantiations use the value the Python matcher
  returns on the concrete input (in particular `[]` on the empty string,
  since neither pattern matches the empty string).
* `urllib.parse.urljoin` is an explicit function parameter `ujoin`.
* Selenium: a rendered page is a `RenderedPage` snapshot; one `scrape_site`
  call observes the outside world through a `SiteVisit` record, and a
  Google-search session observes the successive rendered listing pages as a
  `List ListingPage`.
-/

/-- Python `str`, modelled as a list of characters. -/
abbrev Str := List Char

/-- Character data of a Lean string literal. -/
def str (s : String) : Str := s.data

/-- Python whitespace as used by `str.strip()` and the regex class `\s`
(ASCII range: space, tab, newline, carriage return, vertical tab, form feed). -/
def isPySpace (c : Char) : Bool :=
  c == ' ' || c == '\t' || c == '\n' || c == '\r' || c.toNat == 11 || c.toNat == 12

/-- Python `str.strip()`. -/
def pyStrip (s : Str) : Str :=
  ((s.dropWhile isPySpace).reverse.dropWhile isPySpace).reverse

/-- Python `str.lower()` on an ASCII character. -/
def lowerCh (c : Char) : Char :=
  if 'A' ≤ c ∧ c ≤ 'Z' then Char.ofNat (c.toNat + 32) else c

/-- Python `str.lower()`. -/
def lowerStr (s : Str) : Str := s.map lowerCh

/-- Python `s.startswith(pre)`: `pre` is a leading segment of the second list. -/
def chStarts : Str → Str → Bool
  | [], _ => true
  | _ :: _, [] => false
  | p :: ps, c :: cs => p == c && chStarts ps cs

/-- Python substring containment `needle in hay`. -/
def subStr (needle : Str) : Str → Bool
  | [] => needle.isEmpty
  | c :: cs => chStarts needle (c :: cs) || subStr needle cs

/-- Fuelled worker for `replaceAll`; a fuel of `s.length` always suffices
because every step consumes at least one character of the subject. -/
def replaceAllFuel (pat repl : Str) : Nat → Str → Str
  | _, [] => []
  | 0, s => s
  | n + 1, c :: cs =>
      if !pat.isEmpty && chStarts pat (c :: cs) then
        repl ++ replaceAllFuel pat repl n (List.drop (pat.length - 1) cs)
      else c :: replaceAllFuel pat repl n cs

/-- Python `str.replace(pat, repl)`: replace every non-overlapping occurrence,
left to right. -/
def replaceAll (pat repl s : Str) : Str := replaceAllFuel pat repl s.length s

/-- Python `s.split(ch)[0]`: the part of `s` before the first `ch`. -/
def beforeChar (ch : Char) (s : Str) : Str := s.takeWhile (fun c => c != ch)

/-- Number of digit characters of `s`, i.e. `len(re.sub(r'\D', '', s))`. -/
def digitCount (s : Str) : Nat := (s.filter Char.isDigit).length

/-- Model of Python `set.add` on a deduplicated list: insert if not present. -/
def addSet (s : List Str) (x : Str) : List Str := if x ∈ s then s else s ++ [x]

/-- Model of Python `set.update`: add every element of `t`. -/
def unionSet (s t : List Str) : List Str := t.foldl addSet s

/-- Python `sep.join(xs)`. -/
def joinWith (sep : Str) : List Str → Str
  | [] => []
  | [x] => x
  | x :: y :: rest => x ++ sep ++ joinWith sep (y :: rest)

/-- Code-point lexicographic order, as used by Python `sorted` on strings. -/
def lexLe : Str → Str → Bool
  | [], _ => true
  | _ :: _, [] => false
  | a :: as, b :: bs => if a = b then lexLe as bs else decide (a < b)

/-- Ordered insertion for `sortStrs`. -/
def insSorted (x : Str) : List Str → List Str
  | [] => [x]
  | y :: ys => if lexLe x y then x :: y :: ys else y :: insSorted x ys

/-- Python `sorted` on a list of strings (insertion sort). -/
def sortStrs : List Str → List Str
  | [] => []
  | x :: xs => insSorted x (sortStrs xs)

/-- One hyperlink of the parsed document: its `href` attribute and the raw
text content of the anchor element. -/
structure Link where
  href : Str
  text : Str
  deriving DecidableEq

/-- The slice of a BeautifulSoup-parsed document that the scraper queries.
All lists are in document order; texts are stored raw, and the model applies
`pyStrip` wherever the source calls `get_text(strip=True)`. -/
structure Doc where
  /-- `soup.find_all('a', href=True)` -/
  links : List Link
  /-- the `.string` values of `p/div/span/li/td` elements -/
  elemStrings : List Str
  /-- the `content` attributes of `<meta>` tags -/
  metaContents : List Str
  /-- for each element with `itemtype` matching `PostalAddress`, the raw
  texts of its `itemprop` children -/
  postalBlocks : List (List Str)
  /-- the raw texts of `address/div/p` elements -/
  blockTexts : List Str
  deriving DecidableEq

/-! ## Email extractor (`extract_emails`, lines 300-344) -/

/-- The false-positive denylist of `extract_emails` (lines 325-329). -/
def denylist : List Str :=
  [str "example.com", str "domain.com", str "email.com", str "test.com",
   str "yoursite.com", str "website.com", str "yourdomain.com",
   str "siteaddress.com", str "sample.com", str ".png", str ".jpg", str ".gif"]

/-- `any(x in email for x in [...])` over the denylist. -/
def emailDeny (email : Str) : Bool := denylist.any (fun x => subStr x email)

/-- `email.count('@') == 1 and '.' in email.split('@')[1]` (line 331). -/
def emailShape (email : Str) : Bool :=
  (email.count '@' == 1) &&
    (((email.dropWhile (fun c => c != '@')).drop 1).contains '.')

/-- `link['href'].replace('mailto:', '').split('?')[0].strip()` (line 316). -/
def mailtoRaw (href : Str) : Str :=
  pyStrip (beforeChar '?' (replaceAll (str "mailto:") [] href))

/-- The `mailto:` pass of `extract_emails` (lines 314-318). -/
def emailsFromLinks (links : List Link) : List Str :=
  links.foldl (fun s l =>
    if chStarts (str "mailto:") l.href then
      let email := mailtoRaw l.href
      if email.contains '@' && email.contains '.' then addSet s (lowerStr email)
      else s
    else s) []

/-- The page-text pass of `extract_emails` (lines 321-332): lowercase and
strip each regex hit, filter by truthiness, the denylist and the structural
check, then add. -/
def emailTextScan (efind : Str → List Str) (s0 : List Str) (text : Str) :
    List Str :=
  (efind text).foldl (fun s e0 =>
    let email := pyStrip (lowerStr e0)
    if email ≠ [] ∧ emailDeny email = false then
      if emailShape email = true then addSet s email else s
    else s) s0

/-- The `<meta>` pass of `extract_emails` (lines 335-342): for each content
attribute containing `@`, add every lowercased, stripped regex hit that has
exactly one `@`. -/
def emailMetaScan (efind : Str → List Str) (s0 : List Str)
    (contents : List Str) : List Str :=
  contents.foldl (fun s c =>
    if c.contains '@' then
      (efind c).foldl (fun s e0 =>
        let email := pyStrip (lowerStr e0)
        if email.count '@' == 1 then addSet s email else s) s
    else s) s0

/-- `extract_emails(soup, text)` (lines 300-344); `efind` stands for
`re.findall` with the compiled `email_pattern`. -/
def extract_emails (efind : Str → List Str) (doc : Doc) (text : Str) :
    List Str :=
  emailMetaScan efind (emailTextScan efind (emailsFromLinks doc.links) text)
    doc.metaContents

/-! ## Phone extractor (`extract_phone_numbers`, lines 346-396) -/

/-- One `re.findall` hit of the compiled `phone_pattern`.  Python returns a
plain string when a pattern has at most one group and a tuple of group texts
otherwise; the source's `isinstance(match, str)` branch keeps both shapes. -/
inductive PhoneMatch where
  | whole (s : Str)
  | groups (gs : List Str)
  deriving DecidableEq

/-- `phone = match if isinstance(match, str) else ''.join(match)` (line 376). -/
def joinMatch : PhoneMatch → Str
  | .whole s => s
  | .groups gs => gs.flatten

/-- The character class kept by `re.sub(r'[^0-9+()\s.-]', '', phone)`
(line 364). -/
def telAllowed (c : Char) : Bool :=
  c.isDigit || c == '+' || c == '(' || c == ')' || isPySpace c || c == '.' ||
    c == '-'

/-- Strip the `tel:` scheme and clean a candidate (lines 362-364). -/
def telClean (href : Str) : Str :=
  (pyStrip (replaceAll (str "tel:") [] href)).filter telAllowed

/-- The `tel:` pass of `extract_phone_numbers` (lines 360-366): every cleaned
non-empty candidate is added, with no digit-count validation. -/
def phonesFromLinks (links : List Link) : List Str :=
  links.foldl (fun s l =>
    if chStarts (str "tel:") l.href then
      let phone := telClean l.href
      if phone ≠ [] then addSet s phone else s
    else s) []

/-- The contact-keyword filter `re.compile(r'phone|call|contact|tel', re.I)`
used as a BeautifulSoup `string=` filter (line 370). -/
def keywordHit (t : Str) : Bool :=
  [str "phone", str "call", str "contact", str "tel"].any
    (fun k => subStr k (lowerStr t))

/-- The contact-element pass of `extract_phone_numbers` (lines 372-381):
candidates with 10-15 digits are added. -/
def phoneElemScan (pfind : Str → List PhoneMatch) (s0 : List Str) (t : Str) :
    List Str :=
  (pfind t).foldl (fun s m =>
    let phone := pyStrip (joinMatch m)
    let dc := digitCount phone
    if 10 ≤ dc ∧ dc ≤ 15 then addSet s phone else s) s0

/-- The full-text fallback pass of `extract_phone_numbers` (lines 384-394):
candidates with 10-15 digits not containing the placeholder substrings
`1234567890` / `0000000000` are added. -/
def phoneTextScan (pfind : Str → List PhoneMatch) (s0 : List Str) (t : Str) :
    List Str :=
  (pfind t).foldl (fun s m =>
    let phone := pyStrip (joinMatch m)
    let dc := digitCount phone
    if 10 ≤ dc ∧ dc ≤ 15 then
      if (subStr (str "1234567890") phone || subStr (str "0000000000") phone)
          = false then
        addSet s phone
      else s
    else s) s0

/-- `extract_phone_numbers(soup, text)` (lines 346-396); `pfind` stands for
`re.findall` with the compiled `phone_pattern`.  The fallback scan runs only
when fewer than two candidates were found (line 384). -/
def extract_phone_numbers (pfind : Str → List PhoneMatch) (doc : Doc)
    (text : Str) : List Str :=
  let s1 := phonesFromLinks doc.links
  let s2 := (doc.elemStrings.filter keywordHit).foldl
    (fun s t => phoneElemScan pfind s (pyStrip t)) s1
  if s2.length < 2 then phoneTextScan pfind s2 text else s2

/-! ## Social-link extractor (`extract_social_links`, lines 398-432) -/

/-- The platform → domain-list table (lines 63-70), in dict insertion order. -/
def social_media_domains : List (Str × List Str) :=
  [(str "facebook", [str "facebook.com", str "fb.com"]),
   (str "instagram", [str "instagram.com"]),
   (str "twitter_x", [str "twitter.com", str "x.com"]),
   (str "tiktok", [str "tiktok.com"]),
   (str "youtube", [str "youtube.com", str "youtu.be"]),
   (str "linkedin", [str "linkedin.com"])]

/-- The initial all-empty social-links dict (lines 409-416). -/
def initSocial : List (Str × Str) :=
  [(str "facebook", []), (str "instagram", []), (str "twitter_x", []),
   (str "tiktok", []), (str "youtube", []), (str "linkedin", [])]

/-- Dict lookup `social_links[p]` (missing key gives the falsy `""`, matching
`dict.get`). -/
def getSocial : List (Str × Str) → Str → Str
  | [], _ => []
  | x :: rest, p => if x.1 = p then x.2 else getSocial rest p

/-- Dict assignment `social_links[k] = v` on the fixed-key dict. -/
def assocSet : List (Str × Str) → Str → Str → List (Str × Str)
  | [], _, _ => []
  | x :: rest, k, v => (if x.1 = k then (k, v) else x) :: assocSet rest k v

/-- Whether the dict has key `k`. -/
def hasKey : List (Str × Str) → Str → Bool
  | [], _ => false
  | x :: rest, k => if x.1 = k then true else hasKey rest k

/-- `any` of the platform's domains occurring in the lowercased href
(lines 421-426). -/
def linkMatches (ds : List Str) (l : Link) : Bool :=
  ds.any (fun d => subStr d (lowerStr l.href))

/-- One platform step of the inner loop of `extract_social_links`
(lines 423-430): fill the platform slot from this link only if it is still
empty and a domain matches; the stored value is `urljoin(base, href)`. -/
def platUpdate (ujoin : Str → Str → Str) (base : Str) (l : Link)
    (sl : List (Str × Str)) (pd : Str × List Str) : List (Str × Str) :=
  if (getSocial sl pd.1).isEmpty && linkMatches pd.2 l then
    assocSet sl pd.1 (ujoin base l.href)
  else sl

/-- `extract_social_links(soup, base_url)` (lines 398-432); `ujoin` stands
for `urllib.parse.urljoin`. -/
def extract_social_links (ujoin : Str → Str → Str) (doc : Doc) (base : Str) :
    List (Str × Str) :=
  doc.links.foldl
    (fun sl l => social_media_domains.foldl (platUpdate ujoin base l) sl)
    initSocial

/-! ## Address extractor (`extract_physical_address`, lines 434-465) -/

/-- The address-indicator keywords (line 446). -/
def address_keywords : List Str :=
  [str "address", str "location", str "visit us", str "our office",
   str "headquarters"]

/-- The schema.org tier (lines 449-454): the first `PostalAddress` element
with at least one `itemprop` child yields the comma-join of the children's
stripped texts, with no truncation. -/
def firstPostal : List (List Str) → Option Str
  | [] => none
  | parts :: rest =>
      if parts.isEmpty then firstPostal rest
      else some (joinWith (str ", ") (parts.map pyStrip))

/-- The keyword tier (lines 457-463): the first `address/div/p` element whose
lowercased stripped text contains a keyword and whose length is strictly
between 20 and 500 yields its first 200 characters. -/
def addrTier2 : List Str → Str
  | [] => []
  | t :: rest =>
      let fullText := pyStrip t
      if address_keywords.any (fun k => subStr k (lowerStr fullText)) then
        if 20 < fullText.length ∧ fullText.length < 500 then fullText.take 200
        else addrTier2 rest
      else addrTier2 rest

/-- `extract_physical_address(soup, text)` (lines 434-465).  The `text`
argument is unused, exactly as in the source. -/
def extract_physical_address (doc : Doc) (_text : Str) : Str :=
  match firstPostal doc.postalBlocks with
  | some a => a
  | none => addrTier2 doc.blockTexts

/-! ## Contact-page finder (`find_contact_page`, lines 467-486) -/

/-- The contact-page indicator words (line 483). -/
def contact_words : List Str :=
  [str "contact", str "get-in-touch", str "reach-us"]

/-- Worker for `find_contact_page`: the first link whose lowercased href or
lowercased stripped text contains an indicator word is resolved and
returned. -/
def fcpAux (ujoin : Str → Str → Str) (base : Str) : List Link → Str
  | [] => []
  | l :: rest =>
      if contact_words.any (fun w =>
          subStr w (lowerStr l.href) || subStr w (lowerStr (pyStrip l.text)))
      then ujoin base l.href
      else fcpAux ujoin base rest

/-- `find_contact_page(soup, base_url)` (lines 467-486). -/
def find_contact_page (ujoin : Str → Str → Str) (doc : Doc) (base : Str) :
    Str :=
  fcpAux ujoin base doc.links

/-! ## Paginated result harvester (`search_google`, lines 72-224)

One rendered Google listing page is modelled by what the extraction code
reads from it: for each `div.g` / `div[data-hveid]` result block, the href
of its first `<a href>` child (or `none`); the hrefs inside `div#search`
used by the fallback method (or `none` when that div is absent); and whether
any of the three "Next"-button strategies (by id, by aria-label, by span
text, lines 168-201) yields a clickable control.  The `List ListingPage`
argument is the sequence of listing pages the browser would successively
render; running out of pages models a timeout or error, which breaks the
loop (lines 211-216). -/

structure ListingPage where
  resultBlocks : List (Option Str)
  searchDivLinks : Option (List Str)
  nextFound : Bool
  deriving DecidableEq

/-- The own-domain filter of method 1 (line 137). -/
def googleOwn (url : Str) : Bool :=
  subStr (str "google.com") url || subStr (str "youtube.com/results") url

/-- Method 1 of the link harvest (lines 131-138): for each result block with
a first hyperlink, keep hrefs that start with `http` and are not the search
engine's own links. -/
def method1Links (pg : ListingPage) : List Str :=
  (pg.resultBlocks.filterMap id).filter
    (fun u => chStarts (str "http") u && !(googleOwn u))

/-- The result links harvested from one listing page (lines 129-147):
method 1 over the result blocks, and, only when it yields nothing, method 2
over all links in `div#search`. -/
def pageResultLinks (pg : ListingPage) : List Str :=
  if (method1Links pg).isEmpty then
    match pg.searchDivLinks with
    | some hrefs =>
        hrefs.filter
          (fun h => chStarts (str "http") h && !(subStr (str "google.com") h))
    | none => []
  else method1Links pg

/-- Lines 150-155: append each link not yet seen while below the quota. -/
def addUnique (maxResults : Nat) (urls links : List Str) : List Str :=
  links.foldl
    (fun urls u =>
      if u ∉ urls ∧ urls.length < maxResults then urls ++ [u] else urls)
    urls

/-- The pagination loop of `search_google` (lines 116-216): while below the
quota and within the page budget, harvest the current page, stop when the
quota is reached, and advance only when `page < maxPages` and a "Next"
control is found. -/
def googleLoop (maxResults maxPages : Nat) :
    Nat → List Str → List ListingPage → List Str
  | _, urls, [] => urls
  | page, urls, pg :: rest =>
      if urls.length < maxResults ∧ page ≤ maxPages then
        let urls2 := addUnique maxResults urls (pageResultLinks pg)
        if maxResults ≤ urls2.length then urls2
        else if page < maxPages then
          if pg.nextFound then googleLoop maxResults maxPages (page + 1) urls2 rest
          else urls2
        else urls2
      else urls

/-- `search_google(query, max_results)` (lines 72-224); the query only
determines which listing pages the browser renders, so it is absorbed into
the `pages` argument.  `max_pages = (max_results + 9) // 10` (line 92). -/
def search_google (maxResults : Nat) (pages : List ListingPage) : List Str :=
  googleLoop maxResults ((maxResults + 9) / 10) 1 [] pages

/-! ## Per-site crawl orchestrator (`scrape_site` / `scrape_multiple_sites`,
lines 488-623) -/

/-- A rendered page snapshot: the parsed document, `soup.get_text(...)`, and
`driver.current_url` after redirects. -/
structure RenderedPage where
  doc : Doc
  text : Str
  currentUrl : Str
  deriving DecidableEq

/-- What the outside world does during one `scrape_site` call.
`mainPage = none` models any exception of the outer `try` (page-load
timeout, WebDriver error, ...) reaching the handlers of lines 592-597 before
the result is updated.  `contactFetch = some (cp, k)` models the contact
page rendering as `cp` with `k` of the four extraction-update steps of
lines 566-577 (emails, phones, social, address) completing before an
exception is swallowed by the handler of lines 579-580; `k ≥ 4` means no
exception, `contactFetch = none` an exception before parsing.  It is
consulted only when the fallback visit is triggered. -/
structure SiteVisit where
  mainPage : Option RenderedPage
  contactFetch : Option (RenderedPage × Nat)
  deriving DecidableEq

/-- The output row of `scrape_site` (lines 500-512). -/
structure Record where
  url : Str
  emails : Str
  phone_numbers : Str
  facebook : Str
  instagram : Str
  twitter_x : Str
  tiktok : Str
  youtube : Str
  linkedin : Str
  physical_address : Str
  contact_page_url : Str
  deriving DecidableEq

/-- The initial all-empty result dict (lines 500-512). -/
def emptyRecord (url : Str) : Record :=
  { url := url, emails := [], phone_numbers := [], facebook := [],
    instagram := [], twitter_x := [], tiktok := [], youtube := [],
    linkedin := [], physical_address := [], contact_page_url := [] }

/-- The merged per-site extraction state just before the final record update
(lines 582-588). -/
structure Merged where
  url : Str
  emails : List Str
  phones : List Str
  social : List (Str × Str)
  address : Str
  contactPage : Str
  deriving DecidableEq

/-- The fallback-visit guard of line 551:
`contact_page and contact_page != current_url and (len(emails) == 0 or
len(phones) == 0)`. -/
def contactVisitTriggered (efind : Str → List Str)
    (pfind : Str → List PhoneMatch) (ujoin : Str → Str → Str)
    (mp : RenderedPage) : Bool :=
  let emails := extract_emails efind mp.doc mp.text
  let phones := extract_phone_numbers pfind mp.doc mp.text
  let contactPage := find_contact_page ujoin mp.doc mp.currentUrl
  !(contactPage == []) && !(contactPage == mp.currentUrl) &&
    (emails.isEmpty || phones.isEmpty)

/-- One step of the contact-page social merge (lines 571-573):
`if value and not social.get(key): social[key] = value`. -/
def mergeStep (social : List (Str × Str)) (kv : Str × Str) :
    List (Str × Str) :=
  if kv.2 ≠ [] ∧ getSocial social kv.1 = [] then assocSet social kv.1 kv.2
  else social

/-- The contact-page social merge loop (lines 571-573). -/
def mergeSocial (main contact : List (Str × Str)) : List (Str × Str) :=
  contact.foldl mergeStep main

/-- The extraction and merge pipeline of `scrape_site` (lines 518-588),
producing the field values the result dict is updated with. -/
def scrapeMerged (efind : Str → List Str) (pfind : Str → List PhoneMatch)
    (ujoin : Str → Str → Str) (url : Str) (v : SiteVisit) : Merged :=
  match v.mainPage with
  | none =>
      { url := url, emails := [], phones := [], social := initSocial,
        address := [], contactPage := [] }
  | some mp =>
      let emails := extract_emails efind mp.doc mp.text
      let phones := extract_phone_numbers pfind mp.doc mp.text
      let social := extract_social_links ujoin mp.doc mp.currentUrl
      let address := extract_physical_address mp.doc mp.text
      let contactPage := find_contact_page ujoin mp.doc mp.currentUrl
      if contactVisitTriggered efind pfind ujoin mp then
        match v.contactFetch with
        | none =>
            { url := mp.currentUrl, emails := emails, phones := phones,
              social := social, address := address, contactPage := contactPage }
        | some (cp, k) =>
            let emails := if 1 ≤ k then
                unionSet emails (extract_emails efind cp.doc cp.text)
              else emails
            let phones := if 2 ≤ k then
                unionSet phones (extract_phone_numbers pfind cp.doc cp.text)
              else phones
            let social := if 3 ≤ k then
                mergeSocial social (extract_social_links ujoin cp.doc contactPage)
              else social
            let address := if 4 ≤ k ∧ address = [] then
                extract_physical_address cp.doc cp.text
              else address
            { url := mp.currentUrl, emails := emails, phones := phones,
              social := social, address := address, contactPage := contactPage }
      else
        { url := mp.currentUrl, emails := emails, phones := phones,
          social := social, address := address, contactPage := contactPage }

/-- The final record update (lines 582-588): joined sorted sets, the social
dict spread over its six columns, and the post-redirect url. -/
def recordOf (m : Merged) : Record :=
  { url := m.url,
    emails := joinWith (str ", ") (sortStrs m.emails),
    phone_numbers := joinWith (str ", ") (sortStrs m.phones),
    facebook := getSocial m.social (str "facebook"),
    instagram := getSocial m.social (str "instagram"),
    twitter_x := getSocial m.social (str "twitter_x"),
    tiktok := getSocial m.social (str "tiktok"),
    youtube := getSocial m.social (str "youtube"),
    linkedin := getSocial m.social (str "linkedin"),
    physical_address := m.address,
    contact_page_url := m.contactPage }

/-- `scrape_site(url)` (lines 488-599). -/
def scrape_site (efind : Str → List Str) (pfind : Str → List PhoneMatch)
    (ujoin : Str → Str → Str) (url : Str) (v : SiteVisit) : Record :=
  recordOf (scrapeMerged efind pfind ujoin url v)

/-- `scrape_multiple_sites(urls, delay)` (lines 601-623): one `scrape_site`
call per input url, in order; the inter-request delay is a pure timer. -/
def scrape_multiple_sites (efind : Str → List Str)
    (pfind : Str → List PhoneMatch) (ujoin : Str → Str → Str) :
    List (Str × SiteVisit) → List Record
  | [] => []
  | uv :: rest =>
      scrape_site efind pfind ujoin uv.1 uv.2 ::
        scrape_multiple_sites efind pfind ujoin rest

/-! ## Concrete boundary instantiations used by witnesses and
counterexamples.  `efind0` / `pfind0` are the values of `re.findall` on
inputs the concrete fixtures produce: neither compiled pattern matches the
empty string (the e-mail pattern needs a non-empty local part and the phone
pattern needs at least one mandatory digit group), so on the fixtures'
empty page texts the matcher returns `[]`.  `ujoin0` is `urljoin` on an
absolute href (returned unchanged); `ujoinR` is an arbitrary resolver with
non-empty results. -/

def efind0 : Str → List Str := fun _ => []

def pfind0 : Str → List PhoneMatch := fun _ => []

def ujoin0 : Str → Str → Str := fun _ href => href

def ujoinR : Str → Str → Str := fun _ _ => str "http://resolved.example/"

/-! ## Set-accumulation lemmas -/

theorem mem_addSet {s : List Str} {x y : Str} :
    y ∈ addSet s x ↔ y ∈ s ∨ y = x := by
  unfold addSet
  by_cases h : x ∈ s
  · simp only [if_pos h]
    constructor
    · exact Or.inl
    · intro hy
      rcases hy with hy | hy
      · exact hy
      · exact hy ▸ h
  · simp only [if_neg h, List.mem_append, List.mem_singleton]

theorem mem_addSet_of_mem {s : List Str} {x y : Str} (h : y ∈ s) :
    y ∈ addSet s x := mem_addSet.mpr (Or.inl h)

theorem mem_unionSet_left {t s : List Str} {y : Str} (h : y ∈ s) :
    y ∈ unionSet s t := by
  unfold unionSet
  induction t generalizing s with
  | nil => exact h
  | cons a t ih => exact ih (mem_addSet_of_mem h)

/-- Invariant preservation through a `foldl` that accumulates strings. -/
theorem foldl_mem_induct {β : Type} (P : Str → Prop)
    (f : List Str → β → List Str) :
    ∀ (l : List β) (s : List Str),
      (∀ b, b ∈ l → ∀ t, (∀ z, z ∈ t → P z) → ∀ y, y ∈ f t b → P y) →
      (∀ z, z ∈ s → P z) → ∀ y, y ∈ l.foldl f s → P y := by
  intro l
  induction l with
  | nil => intro s _ hs y hy; exact hs y hy
  | cons b bs ih =>
      intro s hf hs y hy
      rw [List.foldl_cons] at hy
      exact ih (f s b)
        (fun b' hb' => hf b' (List.mem_cons_of_mem _ hb'))
        (hf b (List.mem_cons_self b bs) s hs) y hy

/-! ## Social-dict lemmas -/

theorem getSocial_assocSet_ne :
    ∀ (sl : List (Str × Str)) (k v p : Str), p ≠ k →
      getSocial (assocSet sl k v) p = getSocial sl p := by
  intro sl
  induction sl with
  | nil => intros; rfl
  | cons x rest ih =>
      intro k v p hp
      simp only [assocSet]
      by_cases hx : x.1 = k
      · rw [if_pos hx]
        simp only [getSocial]
        rw [if_neg (fun h => hp h.symm), if_neg (fun h => hp (hx ▸ h).symm)]
        · exact ih k v p hp
      · rw [if_neg hx]
        simp only [getSocial]
        by_cases hxp : x.1 = p
        · rw [if_pos hxp, if_pos hxp]
        · rw [if_neg hxp, if_neg hxp]
          exact ih k v p hp

theorem getSocial_assocSet_self :
    ∀ (sl : List (Str × Str)) (k v : Str), hasKey sl k = true →
      getSocial (assocSet sl k v) k = v := by
  intro sl
  induction sl with
  | nil => intro k v h; simp [hasKey] at h
  | cons x rest ih =>
      intro k v h
      simp only [assocSet]
      by_cases hx : x.1 = k
      · rw [if_pos hx]
        simp [getSocial]
      · rw [if_neg hx]
        simp only [getSocial]
        rw [if_neg hx]
        have h' : hasKey rest k = true := by
          simpa [hasKey, if_neg hx] using h
        exact ih k v h'

theorem hasKey_assocSet :
    ∀ (sl : List (Str × Str)) (k' v k : Str),
      hasKey (assocSet sl k' v) k = hasKey sl k := by
  intro sl
  induction sl with
  | nil => intros; rfl
  | cons x rest ih =>
      intro k' v k
      simp only [assocSet]
      by_cases hx : x.1 = k'
      · rw [if_pos hx]
        simp only [hasKey]
        rw [hx]
        by_cases hk : k' = k
        · rw [if_pos hk, if_pos hk]
        · rw [if_neg hk, if_neg hk]
          exact ih k' v k
      · rw [if_neg hx]
        simp only [hasKey]
        by_cases hk : x.1 = k
        · rw [if_pos hk, if_pos hk]
        · rw [if_neg hk, if_neg hk]
          exact ih k' v k

theorem getSocial_mergeSocial :
    ∀ (contact main : List (Str × Str)) (plat : Str),
      getSocial main plat ≠ [] →
      getSocial (mergeSocial main contact) plat = getSocial main plat := by
  intro contact
  induction contact with
  | nil => intros; rfl
  | cons kv rest ih =>
      intro main plat h
      unfold mergeSocial
      rw [List.foldl_cons]
      show getSocial (mergeSocial (mergeStep main kv) rest) plat = _
      by_cases hc : kv.2 ≠ [] ∧ getSocial main kv.1 = []
      · have hne : plat ≠ kv.1 := fun he => h (he ▸ hc.2)
        have hstep : mergeStep main kv = assocSet main kv.1 kv.2 := by
          unfold mergeStep
          rw [if_pos hc]
        have h2 : getSocial (assocSet main kv.1 kv.2) plat =
            getSocial main plat := getSocial_assocSet_ne main kv.1 kv.2 plat hne
        rw [hstep, ih _ plat (by rw [h2]; exact h), h2]
      · have hstep : mergeStep main kv = main := by
          unfold mergeStep
          rw [if_neg hc]
        rw [hstep, ih _ plat h]

theorem getSocial_platUpdate_ne (ujoin : Str → Str → Str) (base : Str)
    (l : Link) (sl : List (Str × Str)) (pd : Str × List Str) (p : Str)
    (h : p ≠ pd.1) :
    getSocial (platUpdate ujoin base l sl pd) p = getSocial sl p := by
  unfold platUpdate
  split
  · exact getSocial_assocSet_ne sl pd.1 _ p h
  · rfl

theorem hasKey_platUpdate (ujoin : Str → Str → Str) (base : Str) (l : Link)
    (sl : List (Str × Str)) (pd : Str × List Str) (k : Str) :
    hasKey (platUpdate ujoin base l sl pd) k = hasKey sl k := by
  unfold platUpdate
  split
  · exact hasKey_assocSet sl pd.1 _ k
  · rfl

theorem getSocial_foldPlat_notMem (ujoin : Str → Str → Str) (base : Str)
    (l : Link) :
    ∀ (L : List (Str × List Str)) (sl : List (Str × Str)) (p : Str),
      p ∉ L.map Prod.fst →
      getSocial (L.foldl (platUpdate ujoin base l) sl) p = getSocial sl p := by
  intro L
  induction L with
  | nil => intros; rfl
  | cons pd rest ih =>
      intro sl p hp
      rw [List.map_cons] at hp
      have h1 : p ≠ pd.1 := fun he => hp (by rw [he]; exact List.mem_cons_self _ _)
      have h2 : p ∉ rest.map Prod.fst := fun hm => hp (List.mem_cons_of_mem _ hm)
      rw [List.foldl_cons, ih _ p h2]
      exact getSocial_platUpdate_ne ujoin base l sl pd p h1

theorem hasKey_foldPlat (ujoin : Str → Str → Str) (base : Str) (l : Link) :
    ∀ (L : List (Str × List Str)) (sl : List (Str × Str)) (k : Str),
      hasKey (L.foldl (platUpdate ujoin base l) sl) k = hasKey sl k := by
  intro L
  induction L with
  | nil => intros; rfl
  | cons pd rest ih =>
      intro sl k
      rw [List.foldl_cons, ih, hasKey_platUpdate]

/-- Effect of one link's platform loop on platform `p` with domain list `ds`:
the slot is filled from this link exactly when it is still empty and a
domain matches. -/
theorem getSocial_foldPlat (ujoin : Str → Str → Str) (base : Str) (l : Link)
    (p : Str) (ds : List Str) :
    ∀ (L : List (Str × List Str)) (sl : List (Str × Str)),
      (p, ds) ∈ L → (L.map Prod.fst).Nodup → hasKey sl p = true →
      getSocial (L.foldl (platUpdate ujoin base l) sl) p =
        if getSocial sl p = [] ∧ linkMatches ds l = true then
          ujoin base l.href
        else getSocial sl p := by
  intro L
  induction L with
  | nil => intro sl hmem; exact absurd hmem (List.not_mem_nil _)
  | cons pd rest ih =>
      intro sl hmem hnd hk
      rw [List.map_cons, List.nodup_cons] at hnd
      rw [List.foldl_cons]
      by_cases hpd : pd.1 = p
      · have hds : pd = (p, ds) := by
          rcases List.mem_cons.mp hmem with h | h
          · exact h.symm
          · exact absurd (hpd ▸ List.mem_map.mpr ⟨(p, ds), h, rfl⟩) hnd.1
        have hfst : pd.1 = p := hpd
        have hsnd : pd.2 = ds := by rw [hds]
        have hrest : p ∉ rest.map Prod.fst := hfst ▸ hnd.1
        rw [getSocial_foldPlat_notMem ujoin base l rest _ p hrest]
        unfold platUpdate
        rw [hfst, hsnd]
        by_cases hz : getSocial sl p = []
        · by_cases hmz : linkMatches ds l = true
          · rw [if_pos (show ((getSocial sl p).isEmpty && linkMatches ds l)
                = true by rw [hz, hmz]; rfl)]
            rw [getSocial_assocSet_self sl p _ hk, if_pos ⟨hz, hmz⟩]
          · have hmf : linkMatches ds l = false :=
              Bool.eq_false_iff.mpr hmz
            rw [if_neg (show ¬ ((getSocial sl p).isEmpty && linkMatches ds l)
                  = true by simp [hmf])]
            rw [if_neg (fun hand => hmz hand.2)]
        · have hie : (getSocial sl p).isEmpty = false := by
            cases hgp : getSocial sl p with
            | nil => exact absurd hgp hz
            | cons a t => rfl
          rw [if_neg (show ¬ ((getSocial sl p).isEmpty && linkMatches ds l)
                = true by simp [hie])]
          rw [if_neg (fun hand => hz hand.1)]
      · have h1 : p ≠ pd.1 := fun h => hpd h.symm
        have hmem2 : (p, ds) ∈ rest := by
          rcases List.mem_cons.mp hmem with h | h
          · exact absurd (by rw [← h]) hpd
          · exact h
        have hk2 : hasKey (platUpdate ujoin base l sl pd) p = true := by
          rw [hasKey_platUpdate]; exact hk
        rw [ih _ hmem2 hnd.2 hk2,
          getSocial_platUpdate_ne ujoin base l sl pd p h1]

/-- Effect of the whole hyperlink loop of `extract_social_links` on one
platform: the first matching link in document order determines the slot. -/
theorem getSocial_linksFold (ujoin : Str → Str → Str) (base : Str) (p : Str)
    (ds : List Str) (hmem : (p, ds) ∈ social_media_domains)
    (hj : ∀ h, ujoin base h ≠ []) :
    ∀ (links : List Link) (sl : List (Str × Str)), hasKey sl p = true →
      getSocial
        (links.foldl
          (fun sl l => social_media_domains.foldl (platUpdate ujoin base l) sl)
          sl) p =
        (match links.find? (linkMatches ds) with
         | some l => if getSocial sl p = [] then ujoin base l.href
             else getSocial sl p
         | none => getSocial sl p) := by
  have hnd : (social_media_domains.map Prod.fst).Nodup := by decide
  intro links
  induction links with
  | nil => intro sl _; rfl
  | cons l rest ih =>
      intro sl hk
      rw [List.foldl_cons]
      have hk2 : hasKey
          (social_media_domains.foldl (platUpdate ujoin base l) sl) p = true := by
        rw [hasKey_foldPlat]; exact hk
      rw [ih _ hk2]
      have hstep := getSocial_foldPlat ujoin base l p ds social_media_domains
        sl hmem hnd hk
      cases hm : linkMatches ds l with
      | true =>
          by_cases hz : getSocial sl p = []
          · have hval : getSocial
                (social_media_domains.foldl (platUpdate ujoin base l) sl) p =
                ujoin base l.href := by
              rw [hstep, if_pos ⟨hz, hm⟩]
            simp only [List.find?_cons_of_pos _ hm, hval]
            rw [if_pos hz]
            cases hf : rest.find? (linkMatches ds) with
            | none => simp only [hf]
            | some l2 =>
                simp only [hf]
                rw [if_neg (hj l.href)]
          · have hval : getSocial
                (social_media_domains.foldl (platUpdate ujoin base l) sl) p =
                getSocial sl p := by
              rw [hstep, if_neg (fun hand => hz hand.1)]
            simp only [List.find?_cons_of_pos _ hm, hval]
            rw [if_neg hz]
            cases hf : rest.find? (linkMatches ds) with
            | none => simp only [hf]
            | some l2 =>
                simp only [hf]
                rw [if_neg hz]
      | false =>
          have hmf : ¬ linkMatches ds l = true := by simp [hm]
          have hval : getSocial
              (social_media_domains.foldl (platUpdate ujoin base l) sl) p =
              getSocial sl p := by
            rw [hstep, if_neg (fun hand => hmf hand.2)]
          simp only [List.find?_cons_of_neg _ hmf, hval]

/-! ## Pagination lemmas -/

theorem addUnique_cons (N : Nat) (urls : List Str) (u : Str)
    (rest : List Str) :
    addUnique N urls (u :: rest) =
      addUnique N (if u ∉ urls ∧ urls.length < N then urls ++ [u] else urls)
        rest := rfl

theorem addUnique_nodup (N : Nat) :
    ∀ (links urls : List Str), urls.Nodup → (addUnique N urls links).Nodup := by
  intro links
  induction links with
  | nil => intro urls h; exact h
  | cons u rest ih =>
      intro urls h
      rw [addUnique_cons]
      by_cases hc : u ∉ urls ∧ urls.length < N
      · rw [if_pos hc]
        apply ih
        rw [List.nodup_append]
        exact ⟨h, List.nodup_singleton u,
          fun a ha hau => hc.1 ((List.mem_singleton.mp hau) ▸ ha)⟩
      · rw [if_neg hc]
        exact ih urls h

theorem addUnique_len (N : Nat) :
    ∀ (links urls : List Str), urls.length ≤ N →
      (addUnique N urls links).length ≤ N := by
  intro links
  induction links with
  | nil => intro urls h; exact h
  | cons u rest ih =>
      intro urls h
      rw [addUnique_cons]
      by_cases hc : u ∉ urls ∧ urls.length < N
      · rw [if_pos hc]
        apply ih
        rw [List.length_append, List.length_singleton]
        exact hc.2
      · rw [if_neg hc]
        exact ih urls h

theorem addUnique_decomp (N : Nat) :
    ∀ (links urls : List Str), ∃ extra,
      addUnique N urls links = urls ++ extra ∧ List.Sublist extra links := by
  intro links
  induction links with
  | nil => intro urls; exact ⟨[], by simp [addUnique], List.nil_sublist _⟩
  | cons u rest ih =>
      intro urls
      rw [addUnique_cons]
      by_cases hc : u ∉ urls ∧ urls.length < N
      · rw [if_pos hc]
        obtain ⟨e, he, hs⟩ := ih (urls ++ [u])
        exact ⟨u :: e, by rw [he, List.append_assoc]; rfl,
          List.Sublist.cons₂ u hs⟩
      · rw [if_neg hc]
        obtain ⟨e, he, hs⟩ := ih urls
        exact ⟨e, he, List.Sublist.cons u hs⟩

theorem googleLoop_nodup (N maxP : Nat) :
    ∀ (pages : List ListingPage) (page : Nat) (urls : List Str),
      urls.Nodup → (googleLoop N maxP page urls pages).Nodup := by
  intro pages
  induction pages with
  | nil => intro page urls h; exact h
  | cons pg rest ih =>
      intro page urls h
      simp only [googleLoop]
      split
      · split
        · exact addUnique_nodup N _ urls h
        · split
          · split
            · exact ih _ _ (addUnique_nodup N _ urls h)
            · exact addUnique_nodup N _ urls h
          · exact addUnique_nodup N _ urls h
      · exact h

theorem googleLoop_len (N maxP : Nat) :
    ∀ (pages : List ListingPage) (page : Nat) (urls : List Str),
      urls.length ≤ N → (googleLoop N maxP page urls pages).length ≤ N := by
  intro pages
  induction pages with
  | nil => intro page urls h; exact h
  | cons pg rest ih =>
      intro page urls h
      simp only [googleLoop]
      split
      · split
        · exact addUnique_len N _ urls h
        · split
          · split
            · exact ih _ _ (addUnique_len N _ urls h)
            · exact addUnique_len N _ urls h
          · exact addUnique_len N _ urls h
      · exact h

theorem googleLoop_decomp (N maxP : Nat) :
    ∀ (pages : List ListingPage) (page : Nat) (urls : List Str), ∃ extra,
      googleLoop N maxP page urls pages = urls ++ extra ∧
        List.Sublist extra ((pages.map pageResultLinks).flatten) := by
  intro pages
  induction pages with
  | nil =>
      intro page urls
      exact ⟨[], by simp [googleLoop], List.nil_sublist _⟩
  | cons pg rest ih =>
      intro page urls
      simp only [googleLoop, List.map_cons, List.flatten_cons]
      split
      · obtain ⟨e1, he1, hs1⟩ := addUnique_decomp N (pageResultLinks pg) urls
        have hbase : ∃ extra, addUnique N urls (pageResultLinks pg) =
            urls ++ extra ∧
            List.Sublist extra
              (pageResultLinks pg ++ (rest.map pageResultLinks).flatten) :=
          ⟨e1, he1, hs1.trans (List.sublist_append_left _ _)⟩
        split
        · exact hbase
        · split
          · split
            · obtain ⟨e2, he2, hs2⟩ := ih (page + 1)
                (addUnique N urls (pageResultLinks pg))
              exact ⟨e1 ++ e2,
                by rw [he2, he1, List.append_assoc],
                List.Sublist.append hs1 hs2⟩
            · exact hbase
          · exact hbase
      · exact ⟨[], by simp, List.nil_sublist _⟩

theorem googleLoop_take (N maxP : Nat) :
    ∀ (pages : List ListingPage) (page : Nat) (urls : List Str),
      googleLoop N maxP page urls pages =
        googleLoop N maxP page urls (pages.take (maxP + 1 - page)) := by
  intro pages
  induction pages with
  | nil => intro page urls; rw [List.take_nil]
  | cons pg rest ih =>
      intro page urls
      by_cases hg : urls.length < N ∧ page ≤ maxP
      · have hpage : maxP + 1 - page = (maxP - page) + 1 := by omega
        rw [hpage, List.take_succ_cons]
        simp only [googleLoop]
        rw [if_pos hg, if_pos hg]
        split
        · rfl
        · split
          · split
            · have harith : maxP + 1 - (page + 1) = maxP - page := by omega
              rw [ih (page + 1), harith]
            · rfl
          · rfl
      · cases hk : maxP + 1 - page with
        | zero =>
            rw [List.take_zero]
            simp only [googleLoop]
            rw [if_neg hg]
        | succ m =>
            rw [List.take_succ_cons]
            simp only [googleLoop]
            rw [if_neg hg, if_neg hg]

theorem googleLoop_mem (N maxP : Nat) (pages : List ListingPage) (page : Nat)
    (urls : List Str) (y : Str) (hy : y ∈ googleLoop N maxP page urls pages) :
    y ∈ urls ∨ ∃ pg, pg ∈ pages ∧ y ∈ pageResultLinks pg := by
  obtain ⟨e, he, hs⟩ := googleLoop_decomp N maxP pages page urls
  rw [he] at hy
  rcases List.mem_append.mp hy with h | h
  · exact Or.inl h
  · right
    have hmem : y ∈ (pages.map pageResultLinks).flatten := hs.subset h
    rcases List.mem_flatten.mp hmem with ⟨l, hl, hyl⟩
    rcases List.mem_map.mp hl with ⟨pg, hpg, rfl⟩
    exact ⟨pg, hpg, hyl⟩

theorem pageResultLinks_ok (pg : ListingPage) (u : Str)
    (h : u ∈ pageResultLinks pg) :
    chStarts (str "http") u = true ∧ subStr (str "google.com") u = false := by
  unfold pageResultLinks at h
  by_cases he : (method1Links pg).isEmpty = true
  · rw [if_pos he] at h
    cases hd : pg.searchDivLinks with
    | none => simp only [hd] at h; exact absurd h (List.not_mem_nil _)
    | some hrefs =>
        simp only [hd] at h
        have hp := (List.mem_filter.mp h).2
        rw [Bool.and_eq_true] at hp
        obtain ⟨h1, h2⟩ := hp
        refine ⟨h1, ?_⟩
        cases hq : subStr (str "google.com") u with
        | false => rfl
        | true => rw [hq] at h2; exact absurd h2 (by decide)
  · rw [if_neg he] at h
    unfold method1Links at h
    have hp := (List.mem_filter.mp h).2
    rw [Bool.and_eq_true] at hp
    obtain ⟨h1, h2⟩ := hp
    refine ⟨h1, ?_⟩
    cases hq : subStr (str "google.com") u with
    | false => rfl
    | true =>
        have hown : googleOwn u = true := by
          unfold googleOwn
          rw [hq]
          rfl
        rw [hown] at h2
        exact absurd h2 (by decide)

/-! ## Extractor membership lemmas -/

theorem phonesFromLinks_mem (links : List Link) (y : Str)
    (hy : y ∈ phonesFromLinks links) :
    ∃ l, l ∈ links ∧ chStarts (str "tel:") l.href = true ∧
      y = telClean l.href := by
  unfold phonesFromLinks at hy
  refine foldl_mem_induct
    (fun y => ∃ l, l ∈ links ∧ chStarts (str "tel:") l.href = true ∧
      y = telClean l.href)
    _ links [] ?_ (fun z hz => absurd hz (List.not_mem_nil _)) y hy
  intro b hb t ht y2 hy2
  dsimp only at hy2
  split at hy2
  · split at hy2
    · rcases mem_addSet.mp hy2 with h | h
      · exact ht y2 h
      · exact ⟨b, hb, by assumption, h⟩
    · exact ht y2 hy2
  · exact ht y2 hy2

theorem phoneElemScan_mem (pfind : Str → List PhoneMatch) (s0 : List Str)
    (t : Str) (y : Str) (hy : y ∈ phoneElemScan pfind s0 t) :
    y ∈ s0 ∨ (10 ≤ digitCount y ∧ digitCount y ≤ 15) := by
  unfold phoneElemScan at hy
  refine foldl_mem_induct
    (fun y => y ∈ s0 ∨ (10 ≤ digitCount y ∧ digitCount y ≤ 15))
    _ (pfind t) s0 ?_ (fun z hz => Or.inl hz) y hy
  intro b _ s hs y2 hy2
  dsimp only at hy2
  split at hy2
  · rcases mem_addSet.mp hy2 with h | h
    · exact hs y2 h
    · subst h
      exact Or.inr (by assumption)
  · exact hs y2 hy2

theorem phoneTextScan_mem (pfind : Str → List PhoneMatch) (s0 : List Str)
    (t : Str) (y : Str) (hy : y ∈ phoneTextScan pfind s0 t) :
    y ∈ s0 ∨ (10 ≤ digitCount y ∧ digitCount y ≤ 15) := by
  unfold phoneTextScan at hy
  refine foldl_mem_induct
    (fun y => y ∈ s0 ∨ (10 ≤ digitCount y ∧ digitCount y ≤ 15))
    _ (pfind t) s0 ?_ (fun z hz => Or.inl hz) y hy
  intro b _ s hs y2 hy2
  dsimp only at hy2
  split at hy2
  · split at hy2
    · rcases mem_addSet.mp hy2 with h | h
      · exact hs y2 h
      · subst h
        exact Or.inr (by assumption)
    · exact hs y2 hy2
  · exact hs y2 hy2

theorem emailsFromLinks_mem (links : List Link) (y : Str)
    (hy : y ∈ emailsFromLinks links) :
    ∃ l, l ∈ links ∧ chStarts (str "mailto:") l.href = true ∧
      y = lowerStr (mailtoRaw l.href) := by
  unfold emailsFromLinks at hy
  refine foldl_mem_induct
    (fun y => ∃ l, l ∈ links ∧ chStarts (str "mailto:") l.href = true ∧
      y = lowerStr (mailtoRaw l.href))
    _ links [] ?_ (fun z hz => absurd hz (List.not_mem_nil _)) y hy
  intro b hb t ht y2 hy2
  dsimp only at hy2
  split at hy2
  · split at hy2
    · rcases mem_addSet.mp hy2 with h | h
      · exact ht y2 h
      · exact ⟨b, hb, by assumption, h⟩
    · exact ht y2 hy2
  · exact ht y2 hy2

theorem emailTextScan_mem (efind : Str → List Str) (s0 : List Str) (t : Str)
    (y : Str) (hy : y ∈ emailTextScan efind s0 t) :
    y ∈ s0 ∨ emailDeny y = false := by
  unfold emailTextScan at hy
  refine foldl_mem_induct (fun y => y ∈ s0 ∨ emailDeny y = false)
    _ (efind t) s0 ?_ (fun z hz => Or.inl hz) y hy
  intro b _ s hs y2 hy2
  dsimp only at hy2
  split at hy2
  · split at hy2
    · rcases mem_addSet.mp hy2 with h | h
      · exact hs y2 h
      · subst h
        rename_i hcond _
        exact Or.inr hcond.2
    · exact hs y2 hy2
  · exact hs y2 hy2

theorem emailMetaScan_mem (efind : Str → List Str) (s0 : List Str)
    (contents : List Str) (y : Str) (hy : y ∈ emailMetaScan efind s0 contents) :
    y ∈ s0 ∨ ∃ c, c ∈ contents ∧ ∃ r, r ∈ efind c ∧
      y = pyStrip (lowerStr r) := by
  unfold emailMetaScan at hy
  refine foldl_mem_induct
    (fun y => y ∈ s0 ∨ ∃ c, c ∈ contents ∧ ∃ r, r ∈ efind c ∧
      y = pyStrip (lowerStr r))
    _ contents s0 ?_ (fun z hz => Or.inl hz) y hy
  intro b hb s hs y2 hy2
  dsimp only at hy2
  split at hy2
  · refine foldl_mem_induct
      (fun y => y ∈ s0 ∨ ∃ c, c ∈ contents ∧ ∃ r, r ∈ efind c ∧
        y = pyStrip (lowerStr r))
      _ (efind b) s ?_ hs y2 hy2
    intro r hr s2 hs2 y3 hy3
    try dsimp only at hy3
    split at hy3
    · rcases mem_addSet.mp hy3 with h | h
      · exact hs2 y3 h
      · exact Or.inr ⟨b, hb, r, hr, h⟩
    · exact hs2 y3 hy3
  · exact hs y2 hy2

/-! ## Concrete fixtures -/

def emptyDoc : Doc :=
  { links := [], elemStrings := [], metaContents := [], postalBlocks := [],
    blockTexts := [] }

/-- A page with two `tel:` hyperlinks and no other content. -/
def telDoc : Doc :=
  { links := [{ href := str "tel:123", text := str "Ring" },
              { href := str "tel:1111111111", text := str "Ring" }],
    elemStrings := [], metaContents := [], postalBlocks := [], blockTexts := [] }

/-- A page with one `tel:` hyperlink carrying a plausible number. -/
def telDocW : Doc :=
  { links := [{ href := str "tel:+1 (234) 567-8901", text := str "Ring" }],
    elemStrings := [], metaContents := [], postalBlocks := [], blockTexts := [] }

/-- A page whose only content is a `mailto:` link to a denylisted domain. -/
def mailtoDoc : Doc :=
  { links := [{ href := str "mailto:info@example.com", text := str "Mail" }],
    elemStrings := [], metaContents := [], postalBlocks := [], blockTexts := [] }

/-- A page with one ordinary `mailto:` link. -/
def mailtoDocW : Doc :=
  { links := [{ href := str "mailto:Sales@Shop.example", text := str "Mail" }],
    elemStrings := [], metaContents := [], postalBlocks := [], blockTexts := [] }

/-- A page whose `PostalAddress` block has a single 201-character property. -/
def longPostalDoc : Doc :=
  { links := [], elemStrings := [], metaContents := [],
    postalBlocks := [[List.replicate 201 'a']], blockTexts := [] }

/-- A page with a keyword-bearing address paragraph and no structured
markup. -/
def kwAddrDoc : Doc :=
  { links := [], elemStrings := [], metaContents := [], postalBlocks := [],
    blockTexts := [str "Our office address: 5 High Street Springfield"] }

/-- A page with two links to the same social platform. -/
def socialDoc : Doc :=
  { links := [{ href := str "https://facebook.com/one", text := str "fb" },
              { href := str "https://facebook.com/two", text := str "fb" }],
    elemStrings := [], metaContents := [], postalBlocks := [], blockTexts := [] }

/-- A page with only a contact-page link. -/
def contactLinkDoc : Doc :=
  { links := [{ href := str "/contact", text := str "Contact" }],
    elemStrings := [], metaContents := [], postalBlocks := [], blockTexts := [] }

/-- A page with a `mailto:` link and a contact-page link. -/
def mailtoContactDoc : Doc :=
  { links := [{ href := str "mailto:info@shop.example", text := str "Mail" },
              { href := str "/contact", text := str "Contact" }],
    elemStrings := [], metaContents := [], postalBlocks := [], blockTexts := [] }

def mpEmptyPage : RenderedPage :=
  { doc := emptyDoc, text := [], currentUrl := str "http://m.example/" }

def mpContactPage : RenderedPage :=
  { doc := contactLinkDoc, text := [], currentUrl := str "http://m.example/" }

def mpMailtoContactPage : RenderedPage :=
  { doc := mailtoContactDoc, text := [], currentUrl := str "http://m.example/" }

def cpAddrPage : RenderedPage :=
  { doc := kwAddrDoc, text := [], currentUrl := str "http://m.example/contact" }

def cpEmptyPage : RenderedPage :=
  { doc := emptyDoc, text := [], currentUrl := str "http://c.example/" }

/-- A visit whose main-page load fails. -/
def failVisit : SiteVisit := { mainPage := none, contactFetch := none }

/-- Scenario listing page 1: ten fresh result links, "Next" locatable. -/
def scenP1 : ListingPage :=
  { resultBlocks :=
      [some (str "http://r01.example/"), some (str "http://r02.example/"),
       some (str "http://r03.example/"), some (str "http://r04.example/"),
       some (str "http://r05.example/"), some (str "http://r06.example/"),
       some (str "http://r07.example/"), some (str "http://r08.example/"),
       some (str "http://r09.example/"), some (str "http://r10.example/")],
    searchDivLinks := none, nextFound := true }

/-- Scenario listing page 2: five fresh result links. -/
def scenP2 : ListingPage :=
  { resultBlocks :=
      [some (str "http://r11.example/"), some (str "http://r12.example/"),
       some (str "http://r13.example/"), some (str "http://r14.example/"),
       some (str "http://r15.example/")],
    searchDivLinks := none, nextFound := true }

/-- Scenario listing page 3: content that must never be consulted. -/
def scenP3 : ListingPage :=
  { resultBlocks := [some (str "http://junk.example/")],
    searchDivLinks := none, nextFound := false }

/-- Witness listing page for the URL-filter claim. -/
def w10Page : ListingPage :=
  { resultBlocks := [some (str "http://w10.example/")],
    searchDivLinks := none, nextFound := false }

/-! ## Claim C1 -/

/-- C1 (counterexample): the claim "every string returned by
`extract_phone_numbers` has a digit count between 10 and 15 and no
all-identical-digit sequence is ever included, regardless of source" is
false: a `tel:` hyperlink candidate is added after character cleaning with
no digit-count validation (`tel:123` yields a 3-digit entry), and an
all-ones `tel:` candidate is also included. -/
theorem extract_phone_numbers_short_tel_counterexample :
    str "123" ∈ extract_phone_numbers pfind0 telDoc [] ∧
    digitCount (str "123") = 3 ∧
    str "1111111111" ∈ extract_phone_numbers pfind0 telDoc [] ∧
    (str "1111111111").all (fun c => c == '1') = true := by decide

/-- C1 (amended): every string returned by `extract_phone_numbers` either
comes from a `tel:` hyperlink (stripped of the scheme and character-cleaned,
with no digit-count or placeholder validation) or has a digit count between
10 and 15 inclusive; the placeholder rejection (`1234567890` / `0000000000`
substrings) applies only to the full-text fallback scan, and all-identical
digit sequences are not otherwise excluded. -/
theorem extract_phone_numbers_provenance (pfind : Str → List PhoneMatch)
    (doc : Doc) (text : Str) (ph : Str)
    (hm : ph ∈ extract_phone_numbers pfind doc text) :
    (∃ l, l ∈ doc.links ∧ chStarts (str "tel:") l.href = true ∧
      ph = telClean l.href) ∨
    (10 ≤ digitCount ph ∧ digitCount ph ≤ 15) := by
  simp only [extract_phone_numbers] at hm
  have h2 : ∀ y, y ∈ (doc.elemStrings.filter keywordHit).foldl
      (fun s t => phoneElemScan pfind s (pyStrip t))
      (phonesFromLinks doc.links) →
      (∃ l, l ∈ doc.links ∧ chStarts (str "tel:") l.href = true ∧
        y = telClean l.href) ∨
      (10 ≤ digitCount y ∧ digitCount y ≤ 15) := by
    refine foldl_mem_induct _ _ (doc.elemStrings.filter keywordHit)
      (phonesFromLinks doc.links) ?_
      (fun z hz => Or.inl (phonesFromLinks_mem doc.links z hz))
    intro b _ t ht y2 hy2
    rcases phoneElemScan_mem pfind t (pyStrip b) y2 hy2 with h | h
    · exact ht y2 h
    · exact Or.inr h
  split at hm
  · rcases phoneTextScan_mem pfind _ text ph hm with h | h
    · exact h2 ph h
    · exact Or.inr h
  · exact h2 ph hm

/-- C1 (witness): the amended theorem applied to a page with one `tel:`
link. -/
theorem extract_phone_numbers_provenance_witness :
    (∃ l, l ∈ telDocW.links ∧ chStarts (str "tel:") l.href = true ∧
      str "+1 (234) 567-8901" = telClean l.href) ∨
    (10 ≤ digitCount (str "+1 (234) 567-8901") ∧
      digitCount (str "+1 (234) 567-8901") ≤ 15) :=
  extract_phone_numbers_provenance pfind0 telDocW []
    (str "+1 (234) 567-8901") (by decide)

/-! ## Claim C2 -/

/-- C2 (counterexample): the claim "no email with a denylisted domain ever
appears, regardless of where the candidate was found" is false: the
`mailto:` pass has no denylist check, so `mailto:info@example.com` puts a
denylisted address into the result. -/
theorem extract_emails_mailto_denylisted_counterexample :
    str "info@example.com" ∈ extract_emails efind0 mailtoDoc [] ∧
    emailDeny (str "info@example.com") = true := by decide

/-- C2 (amended): every string returned by `extract_emails` either comes
from a `mailto:` hyperlink (scheme and query stripped, lowercased), or from
a `<meta>` content attribute hit, or contains no denylisted substring; the
placeholder denylist is enforced only on candidates from the linear text
scan. -/
theorem extract_emails_denylist_provenance (efind : Str → List Str)
    (doc : Doc) (text : Str) (e : Str)
    (hm : e ∈ extract_emails efind doc text) :
    (∃ l, l ∈ doc.links ∧ chStarts (str "mailto:") l.href = true ∧
      e = lowerStr (mailtoRaw l.href)) ∨
    (∃ c, c ∈ doc.metaContents ∧ ∃ r, r ∈ efind c ∧
      e = pyStrip (lowerStr r)) ∨
    emailDeny e = false := by
  unfold extract_emails at hm
  rcases emailMetaScan_mem efind _ doc.metaContents e hm with h | h
  · rcases emailTextScan_mem efind _ text e h with h2 | h2
    · exact Or.inl (emailsFromLinks_mem doc.links e h2)
    · exact Or.inr (Or.inr h2)
  · exact Or.inr (Or.inl h)

set_option maxRecDepth 40000 in
/-- C2 (witness): the amended theorem applied to a page with one `mailto:`
link. -/
theorem extract_emails_denylist_provenance_witness :
    (∃ l, l ∈ mailtoDocW.links ∧ chStarts (str "mailto:") l.href = true ∧
      str "sales@shop.example" = lowerStr (mailtoRaw l.href)) ∨
    (∃ c, c ∈ mailtoDocW.metaContents ∧ ∃ r, r ∈ efind0 c ∧
      str "sales@shop.example" = pyStrip (lowerStr r)) ∨
    emailDeny (str "sales@shop.example") = false :=
  extract_emails_denylist_provenance efind0 mailtoDocW []
    (str "sales@shop.example") (by decide)

/-! ## Claim C4 -/

set_option maxRecDepth 40000 in
/-- C4 (counterexample): the claim "the returned address always has length
at most 200, including the structured-markup tier" is false: the
`PostalAddress` tier returns the comma-join of the sub-property texts with
no truncation, so a 201-character structured address is returned whole. -/
theorem extract_physical_address_long_postal_counterexample :
    200 < (extract_physical_address longPostalDoc []).length := by decide

/-- C4 (amended): when structured `PostalAddress` markup yields a result it
is returned verbatim (untruncated, possibly longer than 200 characters);
otherwise the keyword tier returns at most 200 characters, and the empty
string when nothing is found. -/
theorem extract_physical_address_length_spec (doc : Doc) (text : Str) :
    (∀ a, firstPostal doc.postalBlocks = some a →
      extract_physical_address doc text = a) ∧
    (firstPostal doc.postalBlocks = none →
      (extract_physical_address doc text).length ≤ 200) := by
  constructor
  · intro a ha
    unfold extract_physical_address
    rw [ha]
  · intro ha
    unfold extract_physical_address
    rw [ha]
    show (addrTier2 doc.blockTexts).length ≤ 200
    induction doc.blockTexts with
    | nil => simp [addrTier2]
    | cons t rest ih =>
        simp only [addrTier2]
        split
        · split
          · rw [List.length_take]
            exact min_le_left _ _
          · exact ih
        · exact ih

/-- C4 (witness): the amended theorem applied to a page with only a
keyword-tier address paragraph. -/
theorem extract_physical_address_length_spec_witness :
    (extract_physical_address kwAddrDoc []).length ≤ 200 :=
  (extract_physical_address_length_spec kwAddrDoc []).2 rfl

/-! ## Claim C8 -/

/-- C8: for every parsed document, platform and resolver with non-empty
results, the platform's slot in `extract_social_links` is determined by the
first hyperlink in document order whose lowercased href matches one of the
platform's domains (`find?`), resolved against the base URL; every later
match for the already-filled platform is ignored, and the slot is empty when
no link matches. -/
theorem social_links_first_match (ujoin : Str → Str → Str) (base : Str)
    (doc : Doc) (p : Str) (ds : List Str)
    (hmem : (p, ds) ∈ social_media_domains)
    (hj : ∀ h, ujoin base h ≠ []) :
    getSocial (extract_social_links ujoin doc base) p =
      (match doc.links.find? (linkMatches ds) with
       | some l => ujoin base l.href
       | none => []) := by
  have hkey : hasKey initSocial p = true ∧ getSocial initSocial p = [] := by
    have h := hmem
    simp only [social_media_domains, List.mem_cons, List.not_mem_nil,
      or_false, Prod.mk.injEq] at h
    rcases h with ⟨h1, _⟩ | ⟨h1, _⟩ | ⟨h1, _⟩ | ⟨h1, _⟩ | ⟨h1, _⟩ | ⟨h1, _⟩ <;>
      subst h1 <;> exact ⟨by decide, by decide⟩
  have hf := getSocial_linksFold ujoin base p ds hmem hj doc.links initSocial
    hkey.1
  unfold extract_social_links
  rw [hf]
  cases hres : doc.links.find? (linkMatches ds) with
  | none => simp only [hres]; exact hkey.2
  | some l => simp only [hres]; rw [if_pos hkey.2]

/-- C8 (witness): the theorem applied to a page with two facebook links and
a constant non-empty resolver. -/
theorem social_links_first_match_witness :
    getSocial (extract_social_links ujoinR socialDoc (str "http://base.example/"))
      (str "facebook") = str "http://resolved.example/" := by
  have h := social_links_first_match ujoinR (str "http://base.example/")
    socialDoc (str "facebook") [str "facebook.com", str "fb.com"]
    (by decide) (by intro h; unfold ujoinR; decide)
  rw [h]
  decide

/-! ## Claim C3 -/

set_option maxRecDepth 200000 in
/-- C3: for every target count `N ≥ 1` and every sequence of rendered
listing pages, `search_google` returns a duplicate-free list, of length at
most `N`, that is a subsequence of the harvested page links in discovery
order, and its result depends only on the first `⌈N/10⌉ = (N+9)/10` listing
pages (it never advances past that page); in particular, for `N = 15` with
10 fresh results on page 1 and 5 fresh results on page 2, it returns exactly
15 URLs and the content of a third page is never consulted. -/
theorem search_google_pagination_spec (N : Nat) (_hN : 1 ≤ N)
    (pages : List ListingPage) :
    (search_google N pages).Nodup ∧
    (search_google N pages).length ≤ N ∧
    List.Sublist (search_google N pages)
      ((pages.map pageResultLinks).flatten) ∧
    search_google N pages = search_google N (pages.take ((N + 9) / 10)) ∧
    search_google 15 [scenP1, scenP2, scenP3] =
      search_google 15 [scenP1, scenP2] ∧
    (search_google 15 [scenP1, scenP2, scenP3]).length = 15 := by
  refine ⟨?_, ?_, ?_, ?_, ?_, ?_⟩
  · exact googleLoop_nodup N _ pages 1 [] List.nodup_nil
  · exact googleLoop_len N _ pages 1 [] (Nat.zero_le N)
  · obtain ⟨e, he, hs⟩ := googleLoop_decomp N ((N + 9) / 10) pages 1 []
    unfold search_google
    rw [he]
    simpa using hs
  · unfold search_google
    have h := googleLoop_take N ((N + 9) / 10) pages 1 []
    simpa using h
  · decide
  · decide

/-- C3 (witness): the theorem applied to `N = 3` with one listing page. -/
theorem search_google_pagination_spec_witness :
    (search_google 3 [w10Page]).Nodup ∧
    (search_google 3 [w10Page]).length ≤ 3 ∧
    List.Sublist (search_google 3 [w10Page])
      (([w10Page].map pageResultLinks).flatten) ∧
    search_google 3 [w10Page] = search_google 3 ([w10Page].take ((3 + 9) / 10)) ∧
    search_google 15 [scenP1, scenP2, scenP3] =
      search_google 15 [scenP1, scenP2] ∧
    (search_google 15 [scenP1, scenP2, scenP3]).length = 15 :=
  search_google_pagination_spec 3 (by decide) [w10Page]

/-! ## Claim C10 -/

/-- C10: every URL in a `search_google` result starts with `http` and does
not contain the substring `google.com` anywhere, so an external result URL
that merely contains `google.com` as a substring is never returned. -/
theorem search_google_url_filter (N : Nat) (pages : List ListingPage)
    (u : Str) (hm : u ∈ search_google N pages) :
    chStarts (str "http") u = true ∧ subStr (str "google.com") u = false := by
  unfold search_google at hm
  rcases googleLoop_mem N ((N + 9) / 10) pages 1 [] u hm with h | ⟨pg, _, hpul⟩
  · exact absurd h (List.not_mem_nil _)
  · exact pageResultLinks_ok pg u hpul

/-- C10 (witness): the theorem applied to a concrete harvested URL. -/
theorem search_google_url_filter_witness :
    chStarts (str "http") (str "http://w10.example/") = true ∧
    subStr (str "google.com") (str "http://w10.example/") = false :=
  search_google_url_filter 10 [w10Page] (str "http://w10.example/") (by decide)

/-! ## Orchestrator unfolding lemmas -/

theorem scrapeMerged_not_triggered (efind : Str → List Str)
    (pfind : Str → List PhoneMatch) (ujoin : Str → Str → Str) (u : Str)
    (mp : RenderedPage) (cf : Option (RenderedPage × Nat))
    (h : contactVisitTriggered efind pfind ujoin mp = false) :
    scrapeMerged efind pfind ujoin u ⟨some mp, cf⟩ =
      { url := mp.currentUrl,
        emails := extract_emails efind mp.doc mp.text,
        phones := extract_phone_numbers pfind mp.doc mp.text,
        social := extract_social_links ujoin mp.doc mp.currentUrl,
        address := extract_physical_address mp.doc mp.text,
        contactPage := find_contact_page ujoin mp.doc mp.currentUrl } := by
  simp [scrapeMerged, h]

theorem scrapeMerged_triggered_none (efind : Str → List Str)
    (pfind : Str → List PhoneMatch) (ujoin : Str → Str → Str) (u : Str)
    (mp : RenderedPage)
    (h : contactVisitTriggered efind pfind ujoin mp = true) :
    scrapeMerged efind pfind ujoin u ⟨some mp, none⟩ =
      { url := mp.currentUrl,
        emails := extract_emails efind mp.doc mp.text,
        phones := extract_phone_numbers pfind mp.doc mp.text,
        social := extract_social_links ujoin mp.doc mp.currentUrl,
        address := extract_physical_address mp.doc mp.text,
        contactPage := find_contact_page ujoin mp.doc mp.currentUrl } := by
  simp [scrapeMerged, h]

theorem scrapeMerged_triggered_some (efind : Str → List Str)
    (pfind : Str → List PhoneMatch) (ujoin : Str → Str → Str) (u : Str)
    (mp cp : RenderedPage) (k : Nat)
    (h : contactVisitTriggered efind pfind ujoin mp = true) :
    scrapeMerged efind pfind ujoin u ⟨some mp, some (cp, k)⟩ =
      { url := mp.currentUrl,
        emails := if 1 ≤ k then
            unionSet (extract_emails efind mp.doc mp.text)
              (extract_emails efind cp.doc cp.text)
          else extract_emails efind mp.doc mp.text,
        phones := if 2 ≤ k then
            unionSet (extract_phone_numbers pfind mp.doc mp.text)
              (extract_phone_numbers pfind cp.doc cp.text)
          else extract_phone_numbers pfind mp.doc mp.text,
        social := if 3 ≤ k then
            mergeSocial (extract_social_links ujoin mp.doc mp.currentUrl)
              (extract_social_links ujoin cp.doc
                (find_contact_page ujoin mp.doc mp.currentUrl))
          else extract_social_links ujoin mp.doc mp.currentUrl,
        address := if 4 ≤ k ∧ extract_physical_address mp.doc mp.text = [] then
            extract_physical_address cp.doc cp.text
          else extract_physical_address mp.doc mp.text,
        contactPage := find_contact_page ujoin mp.doc mp.currentUrl } := by
  simp [scrapeMerged, h]

theorem scrape_site_mainFail (efind : Str → List Str)
    (pfind : Str → List PhoneMatch) (ujoin : Str → Str → Str) (u : Str)
    (v : SiteVisit) (h : v.mainPage = none) :
    scrape_site efind pfind ujoin u v = emptyRecord u := by
  cases v with
  | mk mpg cfetch =>
      cases mpg with
      | none => rfl
      | some _ => exact Option.noConfusion h

/-! ## Claim C5 -/

/-- C5: during `scrape_site` the contact-page visit is triggered exactly
when the discovered contact page is non-empty, differs from the current
resolved URL, and the main-page pass found zero emails or zero phones; when
the guard is false the contact fetch is never consulted, so the result is
independent of it. -/
theorem contact_visit_condition_iff (efind : Str → List Str)
    (pfind : Str → List PhoneMatch) (ujoin : Str → Str → Str) (u : Str)
    (mp : RenderedPage) (cf cf' : Option (RenderedPage × Nat)) :
    (contactVisitTriggered efind pfind ujoin mp = true ↔
      (find_contact_page ujoin mp.doc mp.currentUrl ≠ [] ∧
       find_contact_page ujoin mp.doc mp.currentUrl ≠ mp.currentUrl ∧
       (extract_emails efind mp.doc mp.text = [] ∨
        extract_phone_numbers pfind mp.doc mp.text = []))) ∧
    (contactVisitTriggered efind pfind ujoin mp = false →
      scrape_site efind pfind ujoin u ⟨some mp, cf⟩ =
        scrape_site efind pfind ujoin u ⟨some mp, cf'⟩) := by
  constructor
  · simp only [contactVisitTriggered, Bool.and_eq_true, Bool.or_eq_true,
      Bool.not_eq_true', beq_eq_false_iff_ne, List.isEmpty_iff, ne_eq,
      and_assoc]
  · intro h
    unfold scrape_site
    rw [scrapeMerged_not_triggered efind pfind ujoin u mp cf h,
      scrapeMerged_not_triggered efind pfind ujoin u mp cf' h]

/-- C5 (witness): the theorem applied to a page with no contact link, where
the guard is false and the two fetches are interchangeable. -/
theorem contact_visit_condition_iff_witness :
    scrape_site efind0 pfind0 ujoin0 (str "u") ⟨some mpEmptyPage, none⟩ =
      scrape_site efind0 pfind0 ujoin0 (str "u")
        ⟨some mpEmptyPage, some (cpEmptyPage, 4)⟩ :=
  (contact_visit_condition_iff efind0 pfind0 ujoin0 (str "u") mpEmptyPage
    none (some (cpEmptyPage, 4))).2 (by decide)

/-! ## Claim C6 -/

/-- C6: `scrape_multiple_sites` returns exactly one record per input URL,
in input order (it is the pointwise map of `scrape_site`); a URL whose visit
fails yields a record whose fields are all empty except `url`, and later
URLs are still processed by the same pointwise rule. -/
theorem scrape_multiple_sites_one_record_each (efind : Str → List Str)
    (pfind : Str → List PhoneMatch) (ujoin : Str → Str → Str)
    (pairs : List (Str × SiteVisit)) :
    (scrape_multiple_sites efind pfind ujoin pairs).length = pairs.length ∧
    scrape_multiple_sites efind pfind ujoin pairs =
      pairs.map (fun uv => scrape_site efind pfind ujoin uv.1 uv.2) ∧
    ∀ uv, uv ∈ pairs → uv.2.mainPage = none →
      scrape_site efind pfind ujoin uv.1 uv.2 = emptyRecord uv.1 := by
  refine ⟨?_, ?_, ?_⟩
  · induction pairs with
    | nil => rfl
    | cons a l ih => simp only [scrape_multiple_sites, List.length_cons, ih]
  · induction pairs with
    | nil => rfl
    | cons a l ih => simp only [scrape_multiple_sites, List.map_cons, ih]
  · intro uv _ hfail
    exact scrape_site_mainFail efind pfind ujoin uv.1 uv.2 hfail

/-- C6 (witness): the theorem applied to a single failing visit. -/
theorem scrape_multiple_sites_one_record_each_witness :
    scrape_site efind0 pfind0 ujoin0 (str "http://w.example/") failVisit =
      emptyRecord (str "http://w.example/") :=
  (scrape_multiple_sites_one_record_each efind0 pfind0 ujoin0
      [(str "http://w.example/", failVisit)]).2.2
    (str "http://w.example/", failVisit) (List.mem_singleton.mpr rfl) rfl

/-! ## Claim C7 -/

/-- C7: in the merged record of `scrape_site`, `physical_address` equals
the main-page extraction whenever that value is non-empty (the contact-page
value never replaces it), and it equals the contact-page extraction when the
main-page value is empty and the triggered contact visit completes its
address step. -/
theorem merge_keeps_main_address (efind : Str → List Str)
    (pfind : Str → List PhoneMatch) (ujoin : Str → Str → Str) (u : Str)
    (mp : RenderedPage) (cf : Option (RenderedPage × Nat)) :
    (extract_physical_address mp.doc mp.text ≠ [] →
      (scrape_site efind pfind ujoin u ⟨some mp, cf⟩).physical_address =
        extract_physical_address mp.doc mp.text) ∧
    (∀ cp k, extract_physical_address mp.doc mp.text = [] →
      contactVisitTriggered efind pfind ujoin mp = true →
      cf = some (cp, k) → 4 ≤ k →
      (scrape_site efind pfind ujoin u ⟨some mp, cf⟩).physical_address =
        extract_physical_address cp.doc cp.text) := by
  constructor
  · intro hmain
    show (scrapeMerged efind pfind ujoin u ⟨some mp, cf⟩).address = _
    cases ht : contactVisitTriggered efind pfind ujoin mp with
    | false => rw [scrapeMerged_not_triggered efind pfind ujoin u mp cf ht]
    | true =>
        cases cf with
        | none => rw [scrapeMerged_triggered_none efind pfind ujoin u mp ht]
        | some pk =>
            obtain ⟨cp, k⟩ := pk
            rw [scrapeMerged_triggered_some efind pfind ujoin u mp cp k ht]
            dsimp only
            rw [if_neg (fun hand => hmain hand.2)]
  · intro cp k hmain ht hcf hk
    subst hcf
    show (scrapeMerged efind pfind ujoin u ⟨some mp, some (cp, k)⟩).address = _
    rw [scrapeMerged_triggered_some efind pfind ujoin u mp cp k ht]
    dsimp only
    rw [if_pos ⟨hk, hmain⟩]

/-- C7 (witness): the theorem applied to a main page with a contact link and
no address, and a contact page carrying one; the merged record adopts the
contact-page address. -/
theorem merge_keeps_main_address_witness :
    (scrape_site efind0 pfind0 ujoin0 (str "u")
        ⟨some mpContactPage, some (cpAddrPage, 4)⟩).physical_address =
      extract_physical_address cpAddrPage.doc cpAddrPage.text :=
  (merge_keeps_main_address efind0 pfind0 ujoin0 (str "u") mpContactPage
      (some (cpAddrPage, 4))).2
    cpAddrPage 4 rfl (by decide) rfl (by decide)

/-! ## Claim C9 -/

/-- C9: the contact-page fallback only adds information: every main-page
email and phone stays in the merged sets, a non-empty main-page social slot
keeps its main-page value, and a non-empty main-page address is kept, for
every contact-fetch outcome including an exception after any number of
completed update steps. -/
theorem contact_fallback_monotone (efind : Str → List Str)
    (pfind : Str → List PhoneMatch) (ujoin : Str → Str → Str) (u : Str)
    (mp : RenderedPage) (cf : Option (RenderedPage × Nat)) :
    (∀ e, e ∈ extract_emails efind mp.doc mp.text →
      e ∈ (scrapeMerged efind pfind ujoin u ⟨some mp, cf⟩).emails) ∧
    (∀ ph, ph ∈ extract_phone_numbers pfind mp.doc mp.text →
      ph ∈ (scrapeMerged efind pfind ujoin u ⟨some mp, cf⟩).phones) ∧
    (∀ plat, getSocial (extract_social_links ujoin mp.doc mp.currentUrl)
        plat ≠ [] →
      getSocial (scrapeMerged efind pfind ujoin u ⟨some mp, cf⟩).social plat =
        getSocial (extract_social_links ujoin mp.doc mp.currentUrl) plat) ∧
    (extract_physical_address mp.doc mp.text ≠ [] →
      (scrapeMerged efind pfind ujoin u ⟨some mp, cf⟩).address =
        extract_physical_address mp.doc mp.text) := by
  cases ht : contactVisitTriggered efind pfind ujoin mp with
  | false =>
      simp only [scrapeMerged_not_triggered efind pfind ujoin u mp cf ht]
      exact ⟨fun e he => he, fun ph hp => hp, fun plat _ => by trivial,
        fun _ => by trivial⟩
  | true =>
      cases cf with
      | none =>
          simp only [scrapeMerged_triggered_none efind pfind ujoin u mp ht]
          exact ⟨fun e he => he, fun ph hp => hp, fun plat _ => by trivial,
            fun _ => by trivial⟩
      | some pk =>
          obtain ⟨cp, k⟩ := pk
          simp only [scrapeMerged_triggered_some efind pfind ujoin u mp cp k ht]
          refine ⟨?_, ?_, ?_, ?_⟩
          · intro e he
            try dsimp only
            split
            · exact mem_unionSet_left he
            · exact he
          · intro ph hp
            try dsimp only
            split
            · exact mem_unionSet_left hp
            · exact hp
          · intro plat hplat
            try dsimp only
            split
            · exact getSocial_mergeSocial _ _ plat hplat
            · rfl
          · intro hmain
            try dsimp only
            rw [if_neg (fun hand => hmain hand.2)]

/-- C9 (witness): the theorem's email conjunct applied to a main page with a
`mailto:` link and a contact link, where the contact visit fails after its
first update step. -/
theorem contact_fallback_monotone_witness :
    str "info@shop.example" ∈
      (scrapeMerged efind0 pfind0 ujoin0 (str "u")
        ⟨some mpMailtoContactPage, some (cpEmptyPage, 1)⟩).emails :=
  (contact_fallback_monotone efind0 pfind0 ujoin0 (str "u")
      mpMailtoContactPage (some (cpEmptyPage, 1))).1
    (str "info@shop.example") (by decide)
